import Mathlib

/-!
Verification development for the document-ingestion subsystem of the
repository (src/core/core/services/document_service.py and
src/core/core/models/document_models.py), shallowly embedded in Lean.

Byte streams are lists of naturals, the file system is an explicit
association list from path strings to file contents, and the `magic`
content sniffer is an opaque parameter (a function from bytes to a MIME
string), mirroring the third-party library boundary.
-/

/-! ### Character and string utilities (modelling str/os.path helpers) -/

/-- The sixteen lowercase hexadecimal digit characters. -/
def hexCharList : List Char := "0123456789abcdef".data

/-- Hexadecimal digit character of `n % 16`. -/
def hexChar (n : Nat) : Char :=
  match n % 16 with
  | 0 => '0' | 1 => '1' | 2 => '2' | 3 => '3' | 4 => '4' | 5 => '5' | 6 => '6' | 7 => '7'
  | 8 => '8' | 9 => '9' | 10 => 'a' | 11 => 'b' | 12 => 'c' | 13 => 'd' | 14 => 'e' | _ => 'f'

/-- Fuel-driven decimal digit expansion (structural, so it kernel-reduces). -/
def natDigitsAux : Nat → Nat → List Char
  | 0, _ => []
  | fuel + 1, n => if n < 10 then [hexChar n] else natDigitsAux fuel (n / 10) ++ [hexChar (n % 10)]
  -- the fuel argument strictly dominates the digit count, so `n + 1` steps always suffice

/-- Decimal digit characters of `n`, most significant first. -/
def natDigits (n : Nat) : List Char := natDigitsAux (n + 1) n

/-- Left-pad a character list with zeros to width `w` (strftime zero padding). -/
def zfill (w : Nat) (l : List Char) : List Char :=
  List.replicate (w - l.length) '0' ++ l

/-- Characters before the first underscore; models `s.split('_')[0]`. -/
def takeUntilUnderscore : List Char → List Char
  | [] => []
  | c :: cs => if c = '_' then [] else c :: takeUntilUnderscore cs

/-- `s.split('_')[0]` from Python: everything before the first underscore. -/
def splitHead (s : String) : String := ⟨takeUntilUnderscore s.data⟩

/-- Characters before the first slash. -/
def takeUntilSlash : List Char → List Char
  | [] => []
  | c :: cs => if c = '/' then [] else c :: takeUntilSlash cs

/-- The final path component: the characters after the last slash. -/
def lastComponent (l : List Char) : List Char := (takeUntilSlash l.reverse).reverse

/-- Split a character list at its last dot: `some (pre, suf)` with
`l = pre ++ '.' :: suf` and no dot in `suf`; `none` if no dot occurs. -/
def splitOnLastDot : List Char → Option (List Char × List Char)
  | [] => none
  | c :: cs =>
    match splitOnLastDot cs with
    | some (pre, suf) => some (c :: pre, suf)
    | none => if c = '.' then some ([], cs) else none

/-- `os.path.splitext(s)[1]` on POSIX: the extension of the last path
component, empty when the component has no dot or only leading dots. -/
def splitextExt (s : String) : String :=
  let base := lastComponent s.data
  match splitOnLastDot base with
  | some (pre, suf) => if pre.any (fun c => c ≠ '.') then ⟨'.' :: suf⟩ else ""
  | none => ""

/-- Structural Boolean prefix test on character lists. -/
def charsIsPrefixOf : List Char → List Char → Bool
  | [], _ => true
  | c :: cs, l =>
    match l with
    | d :: ds => c = d && charsIsPrefixOf cs ds
    | [] => false

/-- Whether the string begins with a slash. -/
def headIsSlash (s : String) : Bool :=
  match s.data with
  | '/' :: _ => true
  | _ => false

/-- Whether the string ends with a slash. -/
def lastIsSlash (s : String) : Bool :=
  match s.data.reverse with
  | '/' :: _ => true
  | _ => false

/-- `os.path.join(a, b)` for two arguments on POSIX. -/
def joinPath (a b : String) : String :=
  if headIsSlash b then b
  else if a = "" then b
  else if lastIsSlash a then a ++ b
  else a ++ "/" ++ b

/-- `os.scandir(dir)` membership test: `some name` when `p` is exactly
`dir ++ "/" ++ name` for a nonempty, slash-free entry name. -/
def entryNameOf (dir p : String) : Option String :=
  if charsIsPrefixOf (dir ++ "/").data p.data then
    let name : List Char := p.data.drop (dir ++ "/").data.length
    if name.isEmpty || name.contains '/' then none else some ⟨name⟩
  else none

/-- Split a character list into slash-separated components. -/
def splitSlashAux (cur : List Char) : List Char → List String
  | [] => [⟨cur.reverse⟩]
  | c :: cs => if c = '/' then ⟨cur.reverse⟩ :: splitSlashAux [] cs else splitSlashAux (c :: cur) cs

/-- Stack-based path normalisation: skip empty and `.` segments, pop on `..`. -/
def normSegsAux : List String → List String → List String
  | [], acc => acc.reverse
  | s :: rest, acc =>
    if s = "" || s = "." then normSegsAux rest acc
    else if s = ".." then normSegsAux rest acc.tail
    else normSegsAux rest (s :: acc)

/-- Normalised segment list of a relative POSIX path (resolving `..`). -/
def normalizeSegs (s : String) : List String := normSegsAux (splitSlashAux [] s.data) []

/-- Whether the first segment list is a leading run of the second (used to
state that a resolved path stays under a root directory). -/
def segsIsPrefixOf : List String → List String → Bool
  | [], _ => true
  | x :: xs, l =>
    match l with
    | y :: ys => x = y && segsIsPrefixOf xs ys
    | [] => false

/-! ### Data model (src/core/core/models/document_models.py) -/

/-- `DocumentType`: the closed document-category enumeration. -/
inductive DocumentType where
  | resume
  | cover_letter
deriving DecidableEq

/-- The string value of a `DocumentType` member. -/
def DocumentType.value : DocumentType → String
  | .resume => "resume"
  | .cover_letter => "cover_letter"

/-- The `DocumentType(s)` constructor: `some` on a member value, `none`
where Python raises `ValueError`. -/
def DocumentType.ofString? : String → Option DocumentType
  | "resume" => some .resume
  | "cover_letter" => some .cover_letter
  | _ => none

/-- `DocumentInfo`: the descriptor returned to callers. -/
structure DocumentInfo where
  filename : String
  original_filename : String
  file_path : String
  document_type : DocumentType
  size : Nat
  content_type : String
  last_modified : Option Nat
deriving DecidableEq

/-- `DocumentListResponse`: result of `list_documents`. -/
structure DocumentListResponse where
  documents : List DocumentInfo
  total_count : Nat
  document_type : Option DocumentType
deriving DecidableEq

/-! ### Errors, file system, configuration -/

/-- Python exceptions surfaced by the service: `ValueError`, `OSError`,
and the generic `Exception(...)` raised by the service wrappers. -/
inductive PyErr where
  | valueError (msg : String)
  | osError (msg : String)
  | generic (msg : String)
deriving DecidableEq

/-- `str(e)` of an exception: its message. -/
def PyErr.msg : PyErr → String
  | .valueError m => m
  | .osError m => m
  | .generic m => m

/-- The file system: full path → byte content, plus a set of paths on
which `os.remove` fails with a permission error (fault injection for the
storage layer). -/
structure FS where
  files : List (String × List Nat)
  undeletable : List String
deriving DecidableEq

/-- Look up the content stored at a path. -/
def lookupFile : List (String × List Nat) → String → Option (List Nat)
  | [], _ => none
  | (q, c) :: rest, p => if q = p then some c else lookupFile rest p

/-- `os.path.exists`. -/
def FS.pathExists (fs : FS) (p : String) : Bool := (lookupFile fs.files p).isSome

/-- Drop every entry stored under path `p`. -/
def eraseFile : List (String × List Nat) → String → List (String × List Nat)
  | [], _ => []
  | (q, c) :: rest, p => if q = p then eraseFile rest p else (q, c) :: eraseFile rest p

/-- Create or truncate the file at `p` with content `c` (open mode `wb`). -/
def FS.setFile (fs : FS) (p : String) (c : List Nat) : FS :=
  { fs with files := (p, c) :: eraseFile fs.files p }

/-- Append a chunk to the file at `p` (`out_file.write(chunk)`). -/
def FS.appendFile (fs : FS) (p : String) (chunk : List Nat) : FS :=
  match lookupFile fs.files p with
  | some c => fs.setFile p (c ++ chunk)
  | none => fs.setFile p chunk

/-- `os.remove(p)`: fails on an undeletable path or a missing file. -/
def FS.remove (fs : FS) (p : String) : Except PyErr FS :=
  if p ∈ fs.undeletable then .error (.osError "Permission denied")
  else if fs.pathExists p then
    .ok { fs with files := eraseFile fs.files p }
  else .error (.osError "No such file or directory")

/-- Service configuration: the upload directory and the two constants the
source fixes (`chunk_size = 1MB`, `max_file_size = 10MB`), kept as fields
so that properties can be stated for every configured ceiling. -/
structure Config where
  upload_dir : String
  chunk_size : Nat
  max_file_size : Nat
deriving DecidableEq

/-- The constants of `DocumentService.__init__`. -/
def defaultConfig : Config := ⟨"uploads", 1048576, 10485760⟩

/-! ### Identity generation (save_document lines 71-76) -/

/-- `datetime.now()` components used by `strftime("%Y%m%d_%H%M%S")`. -/
structure DateTime where
  year : Nat
  month : Nat
  day : Nat
  hour : Nat
  minute : Nat
  second : Nat
deriving DecidableEq

/-- `strftime("%Y%m%d_%H%M%S")`: zero-padded decimal fields. -/
def strftimeTimestamp (t : DateTime) : String :=
  ⟨zfill 4 (natDigits t.year) ++ zfill 2 (natDigits t.month) ++ zfill 2 (natDigits t.day) ++
    '_' :: (zfill 2 (natDigits t.hour) ++ zfill 2 (natDigits t.minute) ++ zfill 2 (natDigits t.second))⟩

/-- The four random bytes whose hex expansion forms the first eight
characters of `str(uuid.uuid4())`. -/
structure UuidBytes where
  b0 : Nat
  b1 : Nat
  b2 : Nat
  b3 : Nat
deriving DecidableEq

/-- `str(uuid.uuid4())[:8]`: eight hex characters. -/
def uuidHex8 (u : UuidBytes) : String :=
  ⟨[hexChar (u.b0 / 16), hexChar u.b0, hexChar (u.b1 / 16), hexChar u.b1,
    hexChar (u.b2 / 16), hexChar u.b2, hexChar (u.b3 / 16), hexChar u.b3]⟩

/-- The generated stored name:
`f"{document_type.value}_{timestamp}_{unique_id}{file_extension}"`. -/
def newFilename (dt : DocumentType) (t : DateTime) (u : UuidBytes) (origName : String) : String :=
  dt.value ++ "_" ++ strftimeTimestamp t ++ "_" ++ uuidHex8 u ++ splitextExt origName

/-! ### The service (src/core/core/services/document_service.py) -/

/-- The inbound upload: caller-supplied name, declared MIME type, bytes. -/
structure UploadFileData where
  filename : String
  content_type : String
  data : List Nat
deriving DecidableEq

/-- The allow-list of `_validate_file_type`. -/
def allowedTypes : List String :=
  ["application/pdf", "application/msword",
   "application/vnd.openxmlformats-officedocument.wordprocessingml.document",
   "text/plain"]

/-- `_validate_file_type`: sniff the on-disk bytes with `magic` (the
parameter `sniff`) and test allow-list membership; any inspection
failure (e.g. missing file) yields `False`. -/
def validate_file_type (sniff : List Nat → String) (fs : FS) (p : String) : Bool :=
  match lookupFile fs.files p with
  | none => false
  | some content => allowedTypes.contains (sniff content)

/-- The successive results of `file.read(chunk_size)`: full chunks until
the stream is exhausted (fuel-driven so it kernel-reduces). -/
def chunksOfAux (n : Nat) : Nat → List Nat → List (List Nat)
  | 0, _ => []
  | _ + 1, [] => []
  | fuel + 1, x :: xs => (x :: xs.take (n - 1)) :: chunksOfAux n fuel (xs.drop (n - 1))

/-- Split a byte list into chunks of size `n`. -/
def chunksOf (n : Nat) (l : List Nat) : List (List Nat) := chunksOfAux n l.length l

/-- The `while True` loop of `_stream_file`, carrying the running total
and the file system; returns the loop outcome together with the file
system it leaves behind. -/
def streamLoop (maxSize : Nat) (p : String) :
    List (List Nat) → Nat → FS → Except PyErr Nat × FS
  | [], total, fs => (.ok total, fs)
  | chunk :: rest, total, fs =>
    if chunk.isEmpty then (.ok total, fs)
    else if total + chunk.length > maxSize then
      match fs.remove p with
      | .ok fs' => (.error (.valueError "File size exceeds maximum limit"), fs')
      | .error e => (.error e, fs)
    else streamLoop maxSize p rest (total + chunk.length) (fs.appendFile p chunk)

/-- `_stream_file`: open the destination for writing (creating an empty
file) and run the chunked copy loop under the size ceiling. -/
def stream_file (cfg : Config) (p : String) (data : List Nat) (fs : FS) :
    Except PyErr Nat × FS :=
  streamLoop cfg.max_file_size p (chunksOf cfg.chunk_size data) 0 (fs.setFile p [])

/-- The `except Exception` block of `save_document`: best-effort removal
of the destination (its own failure swallowed by the bare `except: pass`),
then re-raise `Exception(f"Error saving document: {str(e)}")`. -/
def saveCleanup (p : String) (e : PyErr) (fs : FS) : Except PyErr DocumentInfo × FS :=
  let fs' := match fs.remove p with
    | .ok f => f
    | .error _ => fs
  (.error (.generic ("Error saving document: " ++ e.msg)), fs')

/-- `save_document`: generate the stored name, stream the bytes, validate
the on-disk signature, and return the descriptor; every raised error is
wrapped by the handler. -/
def save_document (cfg : Config) (sniff : List Nat → String) (t : DateTime) (u : UuidBytes)
    (file : UploadFileData) (document_type : DocumentType) (fs : FS) :
    Except PyErr DocumentInfo × FS :=
  let new_filename := newFilename document_type t u file.filename
  let file_path := joinPath cfg.upload_dir new_filename
  match stream_file cfg file_path file.data fs with
  | (.error e, fs1) => saveCleanup file_path e fs1
  | (.ok total_size, fs1) =>
    if validate_file_type sniff fs1 file_path then
      (.ok ⟨new_filename, file.filename, file_path, document_type, total_size,
            file.content_type, none⟩, fs1)
    else
      match fs1.remove file_path with
      | .ok fs2 => saveCleanup file_path (.valueError "Invalid file type") fs2
      | .error e => saveCleanup file_path e fs1

/-- `get_document`: join the caller-supplied name to the upload directory,
return `none` when absent, otherwise rebuild a descriptor, deriving the
category from the name prefix and defaulting to resume when it is not a
member value. The stat modification time is modelled as a constant since
no property here concerns it. -/
def get_document (cfg : Config) (filename : String) (fs : FS) : Option DocumentInfo :=
  let file_path := joinPath cfg.upload_dir filename
  match lookupFile fs.files file_path with
  | none => none
  | some content =>
    let document_type := (DocumentType.ofString? (splitHead filename)).getD .resume
    some ⟨filename, filename, file_path, document_type, content.length,
          "application/octet-stream", some 0⟩

/-- `delete_document`: remove the joined path if it exists; a removal
fault is wrapped as `Exception(f"Error deleting document: ...")`. -/
def delete_document (cfg : Config) (filename : String) (fs : FS) : Except PyErr Bool × FS :=
  let file_path := joinPath cfg.upload_dir filename
  if fs.pathExists file_path then
    match fs.remove file_path with
    | .ok fs' => (.ok true, fs')
    | .error e => (.error (.generic ("Error deleting document: " ++ e.msg)), fs)
  else (.ok false, fs)

/-- Loop body of `list_documents`: for one directory entry derive the
category from the prefix before the first underscore, skip entries whose
prefix is not a member value, and apply the optional filter. -/
def listEntry (uploadDir : String) (document_type : Option DocumentType)
    (pc : String × List Nat) : Option DocumentInfo :=
  match entryNameOf uploadDir pc.1 with
  | none => none
  | some name =>
    match DocumentType.ofString? (splitHead name) with
    | none => none
    | some file_doc_type =>
      match document_type with
      | some filt => if file_doc_type ≠ filt then none else
          some ⟨name, name, pc.1, file_doc_type, pc.2.length,
                "application/octet-stream", some 0⟩
      | none =>
          some ⟨name, name, pc.1, file_doc_type, pc.2.length,
                "application/octet-stream", some 0⟩

/-- `list_documents`: scan the upload directory and collect the
descriptors accepted by `listEntry`. -/
def list_documents (cfg : Config) (document_type : Option DocumentType) (fs : FS) :
    DocumentListResponse :=
  let docs := fs.files.filterMap (listEntry cfg.upload_dir document_type)
  ⟨docs, docs.length, document_type⟩

/-! ### Basic lemmas about the string helpers -/

theorem takeUntilUnderscore_append (l r : List Char) (h : '_' ∉ l) :
    takeUntilUnderscore (l ++ '_' :: r) = l := by
  induction l with
  | nil => simp [takeUntilUnderscore]
  | cons c cs ih =>
    simp only [List.mem_cons, not_or] at h
    have hc : c ≠ '_' := fun hh => h.1 hh.symm
    simp [takeUntilUnderscore, hc, ih h.2]

theorem hexChar_mem (n : Nat) : hexChar n ∈ hexCharList := by
  unfold hexChar
  split <;> decide

theorem natDigitsAux_mem (fuel n : Nat) : ∀ c ∈ natDigitsAux fuel n, c ∈ hexCharList := by
  induction fuel generalizing n with
  | zero => simp [natDigitsAux]
  | succ fuel ih =>
    intro c hc
    unfold natDigitsAux at hc
    by_cases h : n < 10
    · simp [h] at hc
      exact hc ▸ hexChar_mem n
    · simp [h] at hc
      rcases hc with hc | hc
      · exact ih _ c hc
      · exact hc ▸ hexChar_mem (n % 10)

theorem zfill_mem (w : Nat) (l : List Char) :
    ∀ c ∈ zfill w l, c = '0' ∨ c ∈ l := by
  intro c hc
  unfold zfill at hc
  rcases List.mem_append.mp hc with h | h
  · exact Or.inl (List.eq_of_mem_replicate h)
  · exact Or.inr h

theorem strftimeTimestamp_mem (t : DateTime) :
    ∀ c ∈ (strftimeTimestamp t).data, c ∈ hexCharList ∨ c = '_' := by
  intro c hc
  have hd : (strftimeTimestamp t).data =
      zfill 4 (natDigits t.year) ++ zfill 2 (natDigits t.month) ++ zfill 2 (natDigits t.day) ++
        '_' :: (zfill 2 (natDigits t.hour) ++ zfill 2 (natDigits t.minute) ++
          zfill 2 (natDigits t.second)) := rfl
  rw [hd] at hc
  have hzf : ∀ (w m : Nat), c ∈ zfill w (natDigits m) → c ∈ hexCharList := by
    intro w m hm
    rcases zfill_mem w (natDigits m) c hm with h | h
    · rw [h]; decide
    · exact natDigitsAux_mem _ _ c h
  simp only [List.mem_append, List.mem_cons] at hc
  rcases hc with ((h | h) | h) | (h | ((h | h) | h))
  · exact Or.inl (hzf _ _ h)
  · exact Or.inl (hzf _ _ h)
  · exact Or.inl (hzf _ _ h)
  · exact Or.inr h
  · exact Or.inl (hzf _ _ h)
  · exact Or.inl (hzf _ _ h)
  · exact Or.inl (hzf _ _ h)

theorem uuidHex8_mem (u : UuidBytes) : ∀ c ∈ (uuidHex8 u).data, c ∈ hexCharList := by
  intro c hc
  have hd : (uuidHex8 u).data =
      [hexChar (u.b0 / 16), hexChar u.b0, hexChar (u.b1 / 16), hexChar u.b1,
       hexChar (u.b2 / 16), hexChar u.b2, hexChar (u.b3 / 16), hexChar u.b3] := rfl
  rw [hd] at hc
  simp only [List.mem_cons, List.not_mem_nil, or_false] at hc
  rcases hc with h | h | h | h | h | h | h | h <;> exact h ▸ hexChar_mem _

theorem splitOnLastDot_none (l : List Char) (h : splitOnLastDot l = none) : '.' ∉ l := by
  induction l with
  | nil => simp
  | cons c cs ih =>
    intro hmem
    unfold splitOnLastDot at h
    rcases hsplit : splitOnLastDot cs with _ | pr
    · rw [hsplit] at h
      rcases List.mem_cons.mp hmem with hc | hc
      · rw [← hc] at h; simp at h
      · exact ih hsplit hc
    · rw [hsplit] at h
      rcases pr with ⟨pre, suf⟩
      simp at h

theorem splitOnLastDot_some (l pre suf : List Char)
    (h : splitOnLastDot l = some (pre, suf)) : l = pre ++ '.' :: suf ∧ '.' ∉ suf := by
  induction l generalizing pre suf with
  | nil => simp [splitOnLastDot] at h
  | cons c cs ih =>
    unfold splitOnLastDot at h
    rcases hsplit : splitOnLastDot cs with _ | ⟨pre', suf'⟩
    · rw [hsplit] at h
      by_cases hc : c = '.'
      · simp [hc] at h
        obtain ⟨h1, h2⟩ := h
        subst h1
        subst h2
        exact ⟨by rw [hc]; rfl, splitOnLastDot_none cs hsplit⟩
      · simp [hc] at h
    · rw [hsplit] at h
      simp at h
      obtain ⟨hpre, hsuf⟩ := h
      obtain ⟨heq, hnd⟩ := ih pre' suf' hsplit
      subst hpre hsuf
      exact ⟨by rw [heq]; rfl, hnd⟩

theorem takeUntilSlash_no_slash (l : List Char) : '/' ∉ takeUntilSlash l := by
  induction l with
  | nil => simp [takeUntilSlash]
  | cons c cs ih =>
    unfold takeUntilSlash
    by_cases hc : c = '/'
    · simp [hc]
    · simp [hc]
      exact ⟨fun hh => hc hh.symm, ih⟩

theorem lastComponent_no_slash (l : List Char) : '/' ∉ lastComponent l := by
  unfold lastComponent
  intro h
  exact takeUntilSlash_no_slash l.reverse (List.mem_reverse.mp h)

/-- The extension is empty, or a dot followed by dot-free, slash-free text. -/
theorem splitextExt_spec (s : String) :
    splitextExt s = "" ∨
      ∃ suf : List Char, (splitextExt s).data = '.' :: suf ∧ '.' ∉ suf ∧ '/' ∉ suf := by
  rw [show splitextExt s = (match splitOnLastDot (lastComponent s.data) with
      | some (pre, suf) => if pre.any (fun c => c ≠ '.') then (⟨'.' :: suf⟩ : String) else ""
      | none => "") from rfl]
  rcases hsplit : splitOnLastDot (lastComponent s.data) with _ | ⟨pre, suf⟩
  · exact Or.inl rfl
  · obtain ⟨heq, hnd⟩ := splitOnLastDot_some _ _ _ hsplit
    by_cases hany : (pre.any fun c => decide (c ≠ '.')) = true
    · refine Or.inr ⟨suf, ?_, hnd, ?_⟩
      · show (if (pre.any fun c => decide (c ≠ '.')) = true
            then ({ data := '.' :: suf } : String) else "").data = '.' :: suf
        rw [if_pos hany]
      · intro hmem
        apply lastComponent_no_slash s.data
        rw [heq]
        exact List.mem_append.mpr (Or.inr (List.mem_cons.mpr (Or.inr hmem)))
    · refine Or.inl ?_
      show (if (pre.any fun c => decide (c ≠ '.')) = true
          then ({ data := '.' :: suf } : String) else "") = ""
      rw [if_neg hany]

theorem splitextExt_no_slash (s : String) : '/' ∉ (splitextExt s).data := by
  rcases splitextExt_spec s with h | ⟨suf, hd, _, hns⟩
  · rw [h]; simp
  · rw [hd]
    simp only [List.mem_cons, not_or]
    exact ⟨by decide, hns⟩

theorem splitextExt_count_dot (s : String) : (splitextExt s).data.count '.' ≤ 1 := by
  rcases splitextExt_spec s with h | ⟨suf, hd, hnd, _⟩
  · rw [h]; simp
  · rw [hd, List.count_cons_self, List.count_eq_zero.mpr hnd]

/-! ### File-system lemmas -/

theorem lookupFile_eraseFile (l : List (String × List Nat)) (p : String) :
    lookupFile (eraseFile l p) p = none := by
  induction l with
  | nil => rfl
  | cons e rest ih =>
    rcases e with ⟨q, c⟩
    by_cases h : q = p
    · simp [eraseFile, h, ih]
    · simp [eraseFile, h, lookupFile, ih]

theorem lookupFile_setFile (fs : FS) (p : String) (c : List Nat) :
    lookupFile (fs.setFile p c).files p = some c := by
  simp [FS.setFile, lookupFile]

theorem setFile_undeletable (fs : FS) (p : String) (c : List Nat) :
    (fs.setFile p c).undeletable = fs.undeletable := rfl

theorem lookupFile_appendFile (fs : FS) (p : String) (chunk w : List Nat)
    (h : lookupFile fs.files p = some w) :
    lookupFile (fs.appendFile p chunk).files p = some (w ++ chunk) := by
  unfold FS.appendFile
  rw [h]
  exact lookupFile_setFile fs p (w ++ chunk)

theorem appendFile_undeletable (fs : FS) (p : String) (chunk : List Nat) :
    (fs.appendFile p chunk).undeletable = fs.undeletable := by
  unfold FS.appendFile
  rcases lookupFile fs.files p with _ | c <;> rfl

theorem remove_ok (fs : FS) (p : String) (hdel : p ∉ fs.undeletable)
    (hex : fs.pathExists p = true) :
    ∃ fs', fs.remove p = .ok fs' ∧ lookupFile fs'.files p = none ∧
      fs'.undeletable = fs.undeletable := by
  refine ⟨{ fs with files := eraseFile fs.files p }, ?_, ?_, rfl⟩
  · simp [FS.remove, hdel, hex]
  · exact lookupFile_eraseFile fs.files p

theorem remove_missing (fs : FS) (p : String) (hdel : p ∉ fs.undeletable)
    (hex : fs.pathExists p = false) :
    fs.remove p = .error (.osError "No such file or directory") := by
  simp [FS.remove, hdel, hex]

theorem remove_fault (fs : FS) (p : String) (hdel : p ∈ fs.undeletable) :
    fs.remove p = .error (.osError "Permission denied") := by
  simp [FS.remove, hdel]

/-! ### Chunking lemmas -/

theorem chunksOfAux_flatten (n : Nat) :
    ∀ (fuel : Nat) (l : List Nat), l.length ≤ fuel → (chunksOfAux n fuel l).flatten = l := by
  intro fuel
  induction fuel with
  | zero =>
    intro l hl
    rw [Nat.le_zero] at hl
    rw [List.length_eq_zero.mp hl]
    rfl
  | succ fuel ih =>
    intro l hl
    cases l with
    | nil => rfl
    | cons x xs =>
      simp only [chunksOfAux, List.flatten_cons]
      rw [ih (xs.drop (n - 1)) (by simp at hl ⊢; omega)]
      simp [List.cons_append, List.take_append_drop]

theorem chunksOf_flatten (n : Nat) (l : List Nat) : (chunksOf n l).flatten = l :=
  chunksOfAux_flatten n l.length l (Nat.le_refl _)

theorem chunksOfAux_ne_nil (n : Nat) :
    ∀ (fuel : Nat) (l : List Nat), ∀ c ∈ chunksOfAux n fuel l, ¬c.isEmpty := by
  intro fuel
  induction fuel with
  | zero => intro l c hc; simp [chunksOfAux] at hc
  | succ fuel ih =>
    intro l c hc
    cases l with
    | nil => simp [chunksOfAux] at hc
    | cons x xs =>
      simp only [chunksOfAux, List.mem_cons] at hc
      rcases hc with h | h
      · rw [h]; simp [List.isEmpty]
      · exact ih _ c h

theorem chunksOf_ne_nil (n : Nat) (l : List Nat) : ∀ c ∈ chunksOf n l, ¬c.isEmpty :=
  chunksOfAux_ne_nil n l.length l

/-! ### Stored-name derivation lemmas -/

theorem splitHead_newFilename_resume (t : DateTime) (u : UuidBytes) (orig : String) :
    splitHead (newFilename .resume t u orig) = "resume" := by
  unfold splitHead newFilename
  have hd : (DocumentType.value .resume ++ "_" ++ strftimeTimestamp t ++ "_" ++ uuidHex8 u ++
      splitextExt orig).data =
      "resume".data ++ '_' :: ((strftimeTimestamp t).data ++ '_' ::
        ((uuidHex8 u).data ++ (splitextExt orig).data)) := by
    simp [String.data_append, DocumentType.value]
  rw [hd, takeUntilUnderscore_append _ _ (by decide)]

theorem splitHead_newFilename_cover (t : DateTime) (u : UuidBytes) (orig : String) :
    splitHead (newFilename .cover_letter t u orig) = "cover" := by
  unfold splitHead newFilename
  have hd : (DocumentType.value .cover_letter ++ "_" ++ strftimeTimestamp t ++ "_" ++ uuidHex8 u ++
      splitextExt orig).data =
      "cover".data ++ '_' :: ("letter".data ++ '_' :: ((strftimeTimestamp t).data ++ '_' ::
        ((uuidHex8 u).data ++ (splitextExt orig).data))) := by
    simp [String.data_append, DocumentType.value]
  rw [hd, takeUntilUnderscore_append _ _ (by decide)]

/-! ### Stream-writer loop lemmas -/

theorem streamLoop_cons_step (max : Nat) (p : String) (chunk : List Nat)
    (rest : List (List Nat)) (total : Nat) (fs : FS)
    (hch : ¬chunk.isEmpty) (hle : total + chunk.length ≤ max) :
    streamLoop max p (chunk :: rest) total fs =
      streamLoop max p rest (total + chunk.length) (fs.appendFile p chunk) := by
  have h2 : ¬(total + chunk.length > max) := by omega
  simp [streamLoop, hch, h2]

theorem streamLoop_overflow_step (max : Nat) (p : String) (chunk : List Nat)
    (rest : List (List Nat)) (total : Nat) (fs : FS)
    (hch : ¬chunk.isEmpty) (hover : total + chunk.length > max) :
    streamLoop max p (chunk :: rest) total fs =
      match fs.remove p with
      | .ok fs' => (.error (.valueError "File size exceeds maximum limit"), fs')
      | .error e => (.error e, fs) := by
  simp [streamLoop, hch, hover]

theorem streamLoop_ok_of_le (max : Nat) (p : String) :
    ∀ (chunks : List (List Nat)) (total : Nat) (fs : FS) (w : List Nat),
      (∀ c ∈ chunks, ¬c.isEmpty) →
      lookupFile fs.files p = some w →
      total + chunks.flatten.length ≤ max →
      ∃ fs', streamLoop max p chunks total fs = (.ok (total + chunks.flatten.length), fs') ∧
        lookupFile fs'.files p = some (w ++ chunks.flatten) ∧
        fs'.undeletable = fs.undeletable := by
  intro chunks
  induction chunks with
  | nil =>
    intro total fs w _ hw _
    exact ⟨fs, by simp [streamLoop], by simpa using hw, rfl⟩
  | cons chunk rest ih =>
    intro total fs w hne hw hle
    have hch : ¬chunk.isEmpty := hne chunk (List.mem_cons_self _ _)
    have hflatlen : (chunk :: rest).flatten.length = chunk.length + rest.flatten.length := by
      rw [List.flatten_cons, List.length_append]
    obtain ⟨fs', h1, h2, h3⟩ := ih (total + chunk.length) (fs.appendFile p chunk) (w ++ chunk)
      (fun c hc => hne c (List.mem_cons_of_mem _ hc))
      (lookupFile_appendFile fs p chunk w hw)
      (by omega)
    refine ⟨fs', ?_, ?_, ?_⟩
    · rw [streamLoop_cons_step max p chunk rest total fs hch (by omega), h1]
      rw [List.flatten_cons, List.length_append]
      rw [Nat.add_assoc]
    · rw [List.flatten_cons, ← List.append_assoc]
      exact h2
    · rw [h3, appendFile_undeletable]

theorem streamLoop_ok_inv (max : Nat) (p : String) :
    ∀ (chunks : List (List Nat)) (total : Nat) (fs : FS) (w : List Nat) (t : Nat) (fs' : FS),
      (∀ c ∈ chunks, ¬c.isEmpty) →
      lookupFile fs.files p = some w →
      streamLoop max p chunks total fs = (.ok t, fs') →
      t = total + chunks.flatten.length ∧
        lookupFile fs'.files p = some (w ++ chunks.flatten) ∧
        fs'.undeletable = fs.undeletable := by
  intro chunks
  induction chunks with
  | nil =>
    intro total fs w t fs' _ hw h
    simp [streamLoop] at h
    obtain ⟨h1, h2⟩ := h
    subst h1; subst h2
    exact ⟨by simp, by simpa using hw, rfl⟩
  | cons chunk rest ih =>
    intro total fs w t fs' hne hw h
    have hch : ¬chunk.isEmpty := hne chunk (List.mem_cons_self _ _)
    by_cases hover : total + chunk.length > max
    · rw [streamLoop_overflow_step max p chunk rest total fs hch hover] at h
      rcases hrem : fs.remove p with fs2 | e
      all_goals rw [hrem] at h
      all_goals simp at h
    · rw [streamLoop_cons_step max p chunk rest total fs hch (by omega)] at h
      obtain ⟨h1, h2, h3⟩ := ih (total + chunk.length) (fs.appendFile p chunk) (w ++ chunk) t fs'
        (fun c hc => hne c (List.mem_cons_of_mem _ hc))
        (lookupFile_appendFile fs p chunk w hw) h
      refine ⟨?_, ?_, ?_⟩
      · rw [h1, List.flatten_cons, List.length_append]; omega
      · rw [List.flatten_cons, ← List.append_assoc]; exact h2
      · rw [h3, appendFile_undeletable]

theorem streamLoop_overflow_clean (max : Nat) (p : String) :
    ∀ (chunks : List (List Nat)) (total : Nat) (fs : FS) (w : List Nat),
      (∀ c ∈ chunks, ¬c.isEmpty) →
      lookupFile fs.files p = some w →
      p ∉ fs.undeletable →
      total ≤ max →
      total + chunks.flatten.length > max →
      ∃ fs', streamLoop max p chunks total fs =
          (.error (.valueError "File size exceeds maximum limit"), fs') ∧
        lookupFile fs'.files p = none ∧ fs'.undeletable = fs.undeletable := by
  intro chunks
  induction chunks with
  | nil =>
    intro total fs w _ _ _ hle hover
    simp at hover
    omega
  | cons chunk rest ih =>
    intro total fs w hne hw hdel hle hover
    have hch : ¬chunk.isEmpty := hne chunk (List.mem_cons_self _ _)
    by_cases hoverc : total + chunk.length > max
    · obtain ⟨fs', hrem, hlook, hund⟩ := remove_ok fs p hdel (by simp [FS.pathExists, hw])
      refine ⟨fs', ?_, hlook, hund⟩
      rw [streamLoop_overflow_step max p chunk rest total fs hch hoverc, hrem]
    · rw [streamLoop_cons_step max p chunk rest total fs hch (by omega)]
      have hflatlen : (chunk :: rest).flatten.length = chunk.length + rest.flatten.length := by
        rw [List.flatten_cons, List.length_append]
      obtain ⟨fs', h1, h2, h3⟩ := ih (total + chunk.length) (fs.appendFile p chunk) (w ++ chunk)
        (fun c hc => hne c (List.mem_cons_of_mem _ hc))
        (lookupFile_appendFile fs p chunk w hw)
        (by rw [appendFile_undeletable]; exact hdel)
        (by omega) (by omega)
      exact ⟨fs', h1, h2, by rw [h3, appendFile_undeletable]⟩

theorem streamLoop_overflow_fault (max : Nat) (p : String) :
    ∀ (chunks : List (List Nat)) (total : Nat) (fs : FS) (w : List Nat),
      (∀ c ∈ chunks, ¬c.isEmpty) →
      lookupFile fs.files p = some w →
      p ∈ fs.undeletable →
      total ≤ max →
      total + chunks.flatten.length > max →
      ∃ fs' w', streamLoop max p chunks total fs =
          (.error (.osError "Permission denied"), fs') ∧
        lookupFile fs'.files p = some w' ∧ fs'.undeletable = fs.undeletable := by
  intro chunks
  induction chunks with
  | nil =>
    intro total fs w _ _ _ hle hover
    simp at hover
    omega
  | cons chunk rest ih =>
    intro total fs w hne hw hdel hle hover
    have hch : ¬chunk.isEmpty := hne chunk (List.mem_cons_self _ _)
    by_cases hoverc : total + chunk.length > max
    · refine ⟨fs, w, ?_, hw, rfl⟩
      rw [streamLoop_overflow_step max p chunk rest total fs hch hoverc, remove_fault fs p hdel]
    · rw [streamLoop_cons_step max p chunk rest total fs hch (by omega)]
      have hflatlen : (chunk :: rest).flatten.length = chunk.length + rest.flatten.length := by
        rw [List.flatten_cons, List.length_append]
      obtain ⟨fs', w', h1, h2, h3⟩ := ih (total + chunk.length) (fs.appendFile p chunk) (w ++ chunk)
        (fun c hc => hne c (List.mem_cons_of_mem _ hc))
        (lookupFile_appendFile fs p chunk w hw)
        (by rw [appendFile_undeletable]; exact hdel)
        (by omega) (by omega)
      exact ⟨fs', w', h1, h2, by rw [h3, appendFile_undeletable]⟩

/-! ### Stream-writer characterisation -/

theorem stream_file_ok_inv (cfg : Config) (p : String) (data : List Nat) (fs : FS)
    (t : Nat) (fs' : FS) (h : stream_file cfg p data fs = (.ok t, fs')) :
    t = data.length ∧ lookupFile fs'.files p = some data ∧
      fs'.undeletable = fs.undeletable := by
  unfold stream_file at h
  obtain ⟨h1, h2, h3⟩ := streamLoop_ok_inv cfg.max_file_size p (chunksOf cfg.chunk_size data) 0
    (fs.setFile p []) [] t fs' (chunksOf_ne_nil _ _) (lookupFile_setFile fs p []) h
  rw [chunksOf_flatten] at h1 h2
  exact ⟨by simpa using h1, by simpa using h2, by rw [h3, setFile_undeletable]⟩

theorem stream_file_ok_of_le (cfg : Config) (p : String) (data : List Nat) (fs : FS)
    (hle : data.length ≤ cfg.max_file_size) :
    ∃ fs', stream_file cfg p data fs = (.ok data.length, fs') ∧
      lookupFile fs'.files p = some data ∧ fs'.undeletable = fs.undeletable := by
  unfold stream_file
  obtain ⟨fs', h1, h2, h3⟩ := streamLoop_ok_of_le cfg.max_file_size p
    (chunksOf cfg.chunk_size data) 0 (fs.setFile p []) []
    (chunksOf_ne_nil _ _) (lookupFile_setFile fs p [])
    (by rw [chunksOf_flatten]; omega)
  rw [chunksOf_flatten] at h1 h2
  refine ⟨fs', ?_, by simpa using h2, by rw [h3, setFile_undeletable]⟩
  rw [h1]
  simp

theorem stream_file_overflow_clean (cfg : Config) (p : String) (data : List Nat) (fs : FS)
    (hover : data.length > cfg.max_file_size) (hdel : p ∉ fs.undeletable) :
    ∃ fs', stream_file cfg p data fs =
        (.error (.valueError "File size exceeds maximum limit"), fs') ∧
      lookupFile fs'.files p = none ∧ fs'.undeletable = fs.undeletable := by
  unfold stream_file
  obtain ⟨fs', h1, h2, h3⟩ := streamLoop_overflow_clean cfg.max_file_size p
    (chunksOf cfg.chunk_size data) 0 (fs.setFile p []) []
    (chunksOf_ne_nil _ _) (lookupFile_setFile fs p [])
    (by rw [setFile_undeletable]; exact hdel)
    (Nat.zero_le _) (by rw [chunksOf_flatten]; omega)
  exact ⟨fs', h1, h2, by rw [h3, setFile_undeletable]⟩

theorem stream_file_overflow_fault (cfg : Config) (p : String) (data : List Nat) (fs : FS)
    (hover : data.length > cfg.max_file_size) (hdel : p ∈ fs.undeletable) :
    ∃ fs' w', stream_file cfg p data fs = (.error (.osError "Permission denied"), fs') ∧
      lookupFile fs'.files p = some w' ∧ fs'.undeletable = fs.undeletable := by
  unfold stream_file
  obtain ⟨fs', w', h1, h2, h3⟩ := streamLoop_overflow_fault cfg.max_file_size p
    (chunksOf cfg.chunk_size data) 0 (fs.setFile p []) []
    (chunksOf_ne_nil _ _) (lookupFile_setFile fs p [])
    (by rw [setFile_undeletable]; exact hdel)
    (Nat.zero_le _) (by rw [chunksOf_flatten]; omega)
  exact ⟨fs', w', h1, h2, by rw [h3, setFile_undeletable]⟩

/-! ### save_document characterisation -/

/-- Zeta-reduced shape of `save_document`, for case analysis. -/
theorem save_document_eq (cfg : Config) (sniff : List Nat → String) (tm : DateTime)
    (u : UuidBytes) (file : UploadFileData) (dtp : DocumentType) (fs : FS) :
    save_document cfg sniff tm u file dtp fs =
      match stream_file cfg (joinPath cfg.upload_dir (newFilename dtp tm u file.filename))
          file.data fs with
      | (.error e, fs1) =>
          saveCleanup (joinPath cfg.upload_dir (newFilename dtp tm u file.filename)) e fs1
      | (.ok total_size, fs1) =>
        if validate_file_type sniff fs1
            (joinPath cfg.upload_dir (newFilename dtp tm u file.filename)) then
          (.ok ⟨newFilename dtp tm u file.filename, file.filename,
                joinPath cfg.upload_dir (newFilename dtp tm u file.filename), dtp, total_size,
                file.content_type, none⟩, fs1)
        else
          match FS.remove fs1 (joinPath cfg.upload_dir (newFilename dtp tm u file.filename)) with
          | .ok fs2 => saveCleanup (joinPath cfg.upload_dir (newFilename dtp tm u file.filename))
              (.valueError "Invalid file type") fs2
          | .error e => saveCleanup (joinPath cfg.upload_dir (newFilename dtp tm u file.filename))
              e fs1 := rfl

theorem save_document_ok_inv (cfg : Config) (sniff : List Nat → String) (tm : DateTime)
    (u : UuidBytes) (file : UploadFileData) (dtp : DocumentType) (fs : FS)
    (info : DocumentInfo) (fs' : FS)
    (h : save_document cfg sniff tm u file dtp fs = (.ok info, fs')) :
    info.filename = newFilename dtp tm u file.filename ∧
      info.document_type = dtp ∧
      info.size = file.data.length ∧
      lookupFile fs'.files (joinPath cfg.upload_dir info.filename) = some file.data := by
  rw [save_document_eq] at h
  split at h
  · simp [saveCleanup] at h
  · rename_i t fs1 hsf
    by_cases hv : validate_file_type sniff fs1
        (joinPath cfg.upload_dir (newFilename dtp tm u file.filename)) = true
    · rw [if_pos hv] at h
      simp only [Prod.mk.injEq, Except.ok.injEq] at h
      obtain ⟨hinfo, hfs⟩ := h
      obtain ⟨ht, hlook, _⟩ := stream_file_ok_inv cfg _ file.data fs t fs1 hsf
      subst hfs
      rw [← hinfo]
      exact ⟨rfl, rfl, ht, hlook⟩
    · rw [if_neg hv] at h
      split at h
      all_goals simp [saveCleanup] at h

theorem save_document_error_generic (cfg : Config) (sniff : List Nat → String) (tm : DateTime)
    (u : UuidBytes) (file : UploadFileData) (dtp : DocumentType) (fs : FS)
    (e : PyErr) (fs' : FS)
    (h : save_document cfg sniff tm u file dtp fs = (.error e, fs')) :
    ∃ m, e = PyErr.generic ("Error saving document: " ++ m) := by
  rw [save_document_eq] at h
  split at h
  · rename_i e0 fs1 hsf
    simp [saveCleanup] at h
    exact ⟨e0.msg, h.1.symm⟩
  · rename_i t fs1 hsf
    by_cases hv : validate_file_type sniff fs1
        (joinPath cfg.upload_dir (newFilename dtp tm u file.filename)) = true
    · rw [if_pos hv] at h
      simp at h
    · rw [if_neg hv] at h
      split at h
      · rename_i fs2 hrem
        simp [saveCleanup, PyErr.msg] at h
        exact ⟨"Invalid file type", h.1.symm⟩
      · rename_i e1 hrem
        simp [saveCleanup] at h
        exact ⟨e1.msg, h.1.symm⟩

theorem saveCleanup_missing (p : String) (e : PyErr) (fs : FS)
    (hdel : p ∉ fs.undeletable) (hex : FS.pathExists fs p = false) :
    saveCleanup p e fs = (.error (.generic ("Error saving document: " ++ e.msg)), fs) := by
  unfold saveCleanup
  rw [remove_missing fs p hdel hex]

theorem saveCleanup_fault (p : String) (e : PyErr) (fs : FS) (hdel : p ∈ fs.undeletable) :
    saveCleanup p e fs = (.error (.generic ("Error saving document: " ++ e.msg)), fs) := by
  unfold saveCleanup
  rw [remove_fault fs p hdel]

theorem save_document_ok_of_valid (cfg : Config) (sniff : List Nat → String) (tm : DateTime)
    (u : UuidBytes) (file : UploadFileData) (dtp : DocumentType) (fs : FS)
    (hlen : file.data.length ≤ cfg.max_file_size)
    (hsniff : allowedTypes.contains (sniff file.data) = true) :
    ∃ fs', save_document cfg sniff tm u file dtp fs =
        (.ok ⟨newFilename dtp tm u file.filename, file.filename,
              joinPath cfg.upload_dir (newFilename dtp tm u file.filename), dtp,
              file.data.length, file.content_type, none⟩, fs') ∧
      lookupFile fs'.files (joinPath cfg.upload_dir (newFilename dtp tm u file.filename)) =
        some file.data := by
  obtain ⟨fs1, hsf, hlook, hund⟩ := stream_file_ok_of_le cfg
    (joinPath cfg.upload_dir (newFilename dtp tm u file.filename)) file.data fs hlen
  refine ⟨fs1, ?_, hlook⟩
  rw [save_document_eq, hsf]
  have hv : validate_file_type sniff fs1
      (joinPath cfg.upload_dir (newFilename dtp tm u file.filename)) = true := by
    unfold validate_file_type
    rw [hlook]
    exact hsniff
  simp [hv]

theorem save_document_size_limit (cfg : Config) (sniff : List Nat → String) (tm : DateTime)
    (u : UuidBytes) (file : UploadFileData) (dtp : DocumentType) (fs : FS)
    (hover : file.data.length > cfg.max_file_size)
    (hdel : joinPath cfg.upload_dir (newFilename dtp tm u file.filename) ∉ fs.undeletable) :
    ∃ fs', save_document cfg sniff tm u file dtp fs =
        (.error (.generic "Error saving document: File size exceeds maximum limit"), fs') ∧
      lookupFile fs'.files (joinPath cfg.upload_dir (newFilename dtp tm u file.filename)) =
        none := by
  obtain ⟨fs1, hsf, hlook, hund⟩ := stream_file_overflow_clean cfg
    (joinPath cfg.upload_dir (newFilename dtp tm u file.filename)) file.data fs hover hdel
  refine ⟨fs1, ?_, hlook⟩
  rw [save_document_eq, hsf]
  show saveCleanup (joinPath cfg.upload_dir (newFilename dtp tm u file.filename))
      (.valueError "File size exceeds maximum limit") fs1 = _
  rw [saveCleanup_missing _ _ fs1 (by rw [hund]; exact hdel) (by simp [FS.pathExists, hlook])]
  rfl

theorem save_document_invalid_type (cfg : Config) (sniff : List Nat → String) (tm : DateTime)
    (u : UuidBytes) (file : UploadFileData) (dtp : DocumentType) (fs : FS)
    (hlen : file.data.length ≤ cfg.max_file_size)
    (hsniff : allowedTypes.contains (sniff file.data) = false)
    (hdel : joinPath cfg.upload_dir (newFilename dtp tm u file.filename) ∉ fs.undeletable) :
    ∃ fs', save_document cfg sniff tm u file dtp fs =
        (.error (.generic "Error saving document: Invalid file type"), fs') ∧
      lookupFile fs'.files (joinPath cfg.upload_dir (newFilename dtp tm u file.filename)) =
        none := by
  obtain ⟨fs1, hsf, hlook, hund⟩ := stream_file_ok_of_le cfg
    (joinPath cfg.upload_dir (newFilename dtp tm u file.filename)) file.data fs hlen
  have hv : validate_file_type sniff fs1
      (joinPath cfg.upload_dir (newFilename dtp tm u file.filename)) = false := by
    unfold validate_file_type
    rw [hlook]
    exact hsniff
  obtain ⟨fs2, hrem, hlook2, hund2⟩ := remove_ok fs1
    (joinPath cfg.upload_dir (newFilename dtp tm u file.filename))
    (by rw [hund]; exact hdel) (by simp [FS.pathExists, hlook])
  refine ⟨fs2, ?_, hlook2⟩
  rw [save_document_eq, hsf]
  show (if validate_file_type sniff fs1
        (joinPath cfg.upload_dir (newFilename dtp tm u file.filename)) = true
      then _ else _) = _
  rw [if_neg (by rw [hv]; exact Bool.false_ne_true), hrem]
  show saveCleanup (joinPath cfg.upload_dir (newFilename dtp tm u file.filename))
      (.valueError "Invalid file type") fs2 = _
  rw [saveCleanup_missing _ _ fs2 (by rw [hund2, hund]; exact hdel)
    (by simp [FS.pathExists, hlook2])]
  rfl

theorem save_document_overflow_fault (cfg : Config) (sniff : List Nat → String) (tm : DateTime)
    (u : UuidBytes) (file : UploadFileData) (dtp : DocumentType) (fs : FS)
    (hover : file.data.length > cfg.max_file_size)
    (hdel : joinPath cfg.upload_dir (newFilename dtp tm u file.filename) ∈ fs.undeletable) :
    ∃ fs' w', save_document cfg sniff tm u file dtp fs =
        (.error (.generic "Error saving document: Permission denied"), fs') ∧
      lookupFile fs'.files (joinPath cfg.upload_dir (newFilename dtp tm u file.filename)) =
        some w' := by
  obtain ⟨fs1, w', hsf, hlook, hund⟩ := stream_file_overflow_fault cfg
    (joinPath cfg.upload_dir (newFilename dtp tm u file.filename)) file.data fs hover hdel
  refine ⟨fs1, w', ?_, hlook⟩
  rw [save_document_eq, hsf]
  show saveCleanup (joinPath cfg.upload_dir (newFilename dtp tm u file.filename))
      (.osError "Permission denied") fs1 = _
  rw [saveCleanup_fault _ _ fs1 (by rw [hund]; exact hdel)]
  rfl

/-- Zeta-reduced shape of `get_document`. -/
theorem get_document_eq (cfg : Config) (fname : String) (fs : FS) :
    get_document cfg fname fs =
      match lookupFile fs.files (joinPath cfg.upload_dir fname) with
      | none => none
      | some content => some ⟨fname, fname, joinPath cfg.upload_dir fname,
          (DocumentType.ofString? (splitHead fname)).getD .resume, content.length,
          "application/octet-stream", some 0⟩ := rfl

/-- Zeta-reduced shape of `delete_document`. -/
theorem delete_document_eq (cfg : Config) (fname : String) (fs : FS) :
    delete_document cfg fname fs =
      if fs.pathExists (joinPath cfg.upload_dir fname) then
        match fs.remove (joinPath cfg.upload_dir fname) with
        | .ok fs' => (.ok true, fs')
        | .error e => (.error (.generic ("Error deleting document: " ++ e.msg)), fs)
      else (.ok false, fs) := rfl

/-! ### Listing lemmas -/

theorem listEntry_some_inv (dir : String) (filt : Option DocumentType)
    (pc : String × List Nat) (info : DocumentInfo)
    (h : listEntry dir filt pc = some info) :
    ∃ nm, entryNameOf dir pc.1 = some nm ∧
      DocumentType.ofString? (splitHead nm) = some info.document_type ∧
      info.filename = nm ∧ info.size = pc.2.length ∧
      (∀ t, filt = some t → info.document_type = t) := by
  rcases filt with _ | ft
  · unfold listEntry at h
    split at h
    · simp at h
    · rename_i nm hen
      split at h
      · simp at h
      · rename_i fdt hof
        simp only [Option.some.injEq] at h
        subst h
        exact ⟨nm, hen, hof, rfl, rfl, fun t ht => absurd ht (by simp)⟩
  · unfold listEntry at h
    split at h
    · simp at h
    · rename_i nm hen
      split at h
      · simp at h
      · rename_i fdt hof
        by_cases hne : fdt = ft
        · subst hne
          simp at h
          subst h
          refine ⟨nm, hen, hof, rfl, rfl, ?_⟩
          intro t ht
          exact Option.some.inj ht
        · simp [hne] at h

theorem listEntry_some_of (dir : String) (filt : Option DocumentType)
    (pc : String × List Nat) (nm : String) (t : DocumentType)
    (hen : entryNameOf dir pc.1 = some nm)
    (hof : DocumentType.ofString? (splitHead nm) = some t)
    (hfil : filt = none ∨ filt = some t) :
    listEntry dir filt pc =
      some ⟨nm, nm, pc.1, t, pc.2.length, "application/octet-stream", some 0⟩ := by
  rcases hfil with h | h <;> subst h <;> simp [listEntry, hen, hof]

theorem splitHead_cover_letter_prefixed (r : String) :
    splitHead ("cover_letter_" ++ r) = "cover" := by
  unfold splitHead
  have hd : ("cover_letter_" ++ r).data =
      "cover".data ++ '_' :: ("letter_".data ++ r.data) := by
    simp [String.data_append]
  rw [hd, takeUntilUnderscore_append _ _ (by decide)]

/-! ### Claim theorems -/

/-- C1 (amended): for every successful `save_document`, the returned
descriptor is retrievable via `get_document(stored_name)` with identical
`size_bytes`; the retrieved category is always `resume`, so it equals the
saved category exactly when the saved category is `resume` — for
`cover_letter` the prefix before the first underscore is `"cover"`, which
is not a member value, and `get_document` falls back to `resume`. -/
theorem c1_save_get_roundtrip (cfg : Config) (sniff : List Nat → String) (tm : DateTime)
    (u : UuidBytes) (file : UploadFileData) (dtp : DocumentType) (fs : FS)
    (info : DocumentInfo) (fs' : FS)
    (h : save_document cfg sniff tm u file dtp fs = (.ok info, fs')) :
    ∃ g, get_document cfg info.filename fs' = some g ∧ g.size = info.size ∧
      g.document_type = DocumentType.resume ∧
      (g.document_type = info.document_type ↔ dtp = DocumentType.resume) := by
  obtain ⟨hname, htype, hsize, hlook⟩ :=
    save_document_ok_inv cfg sniff tm u file dtp fs info fs' h
  rw [get_document_eq, hlook]
  have hdt : (DocumentType.ofString? (splitHead info.filename)).getD .resume = .resume := by
    rw [hname]
    cases dtp
    · rw [splitHead_newFilename_resume]; rfl
    · rw [splitHead_newFilename_cover]; rfl
  refine ⟨_, rfl, hsize.symm, hdt, ?_⟩
  show (DocumentType.ofString? (splitHead info.filename)).getD .resume = info.document_type ↔
    dtp = DocumentType.resume
  rw [hdt, htype]
  exact eq_comm

theorem c1_witness :
    ∃ g, get_document ⟨"uploads", 2, 10⟩
        (⟨"resume_20240102_030405_00000000.txt", "a.txt",
          "uploads/resume_20240102_030405_00000000.txt", DocumentType.resume, 3,
          "text/plain", none⟩ : DocumentInfo).filename
        ⟨[("uploads/resume_20240102_030405_00000000.txt", [1, 2, 3])], []⟩ = some g ∧
      g.size = (⟨"resume_20240102_030405_00000000.txt", "a.txt",
          "uploads/resume_20240102_030405_00000000.txt", DocumentType.resume, 3,
          "text/plain", none⟩ : DocumentInfo).size ∧
      g.document_type = DocumentType.resume ∧
      (g.document_type = (⟨"resume_20240102_030405_00000000.txt", "a.txt",
          "uploads/resume_20240102_030405_00000000.txt", DocumentType.resume, 3,
          "text/plain", none⟩ : DocumentInfo).document_type ↔
        DocumentType.resume = DocumentType.resume) :=
  c1_save_get_roundtrip ⟨"uploads", 2, 10⟩ (fun _ => "text/plain") ⟨2024, 1, 2, 3, 4, 5⟩
    ⟨0, 0, 0, 0⟩ ⟨"a.txt", "text/plain", [1, 2, 3]⟩ .resume ⟨[], []⟩ _ _ rfl

/-- C1 counterexample: a cover-letter upload is saved with category
`cover_letter`, but `get_document` on its stored name returns a descriptor
whose category is `resume`, so the retrieved category differs from the
saved one. -/
theorem c1_counterexample :
    (save_document ⟨"uploads", 2, 10⟩ (fun _ => "application/pdf") ⟨2024, 1, 1, 0, 0, 0⟩
        ⟨171, 18, 205, 52⟩ ⟨"a.pdf", "application/pdf", [37, 80, 68, 70]⟩
        .cover_letter ⟨[], []⟩).1 =
      .ok ⟨"cover_letter_20240101_000000_ab12cd34.pdf", "a.pdf",
           "uploads/cover_letter_20240101_000000_ab12cd34.pdf", .cover_letter, 4,
           "application/pdf", none⟩ ∧
    get_document ⟨"uploads", 2, 10⟩ "cover_letter_20240101_000000_ab12cd34.pdf"
        (save_document ⟨"uploads", 2, 10⟩ (fun _ => "application/pdf") ⟨2024, 1, 1, 0, 0, 0⟩
          ⟨171, 18, 205, 52⟩ ⟨"a.pdf", "application/pdf", [37, 80, 68, 70]⟩
          .cover_letter ⟨[], []⟩).2 =
      some ⟨"cover_letter_20240101_000000_ab12cd34.pdf",
            "cover_letter_20240101_000000_ab12cd34.pdf",
            "uploads/cover_letter_20240101_000000_ab12cd34.pdf", .resume, 4,
            "application/octet-stream", some 0⟩ ∧
    decide (DocumentType.resume = DocumentType.cover_letter) = false :=
  ⟨rfl, rfl, rfl⟩

/-- C3: for every input stream longer than `max_file_size_bytes` (and a
storage layer that can delete the partial file), `save_document` fails,
surfacing the size-limit condition, and no file exists afterward at the
generated destination path. -/
theorem c3_size_limit_rejected (cfg : Config) (sniff : List Nat → String) (tm : DateTime)
    (u : UuidBytes) (file : UploadFileData) (dtp : DocumentType) (fs : FS)
    (hover : file.data.length > cfg.max_file_size)
    (hdel : joinPath cfg.upload_dir (newFilename dtp tm u file.filename) ∉ fs.undeletable) :
    ∃ fs', save_document cfg sniff tm u file dtp fs =
        (.error (.generic "Error saving document: File size exceeds maximum limit"), fs') ∧
      lookupFile fs'.files (joinPath cfg.upload_dir (newFilename dtp tm u file.filename)) =
        none :=
  save_document_size_limit cfg sniff tm u file dtp fs hover hdel

theorem c3_witness :
    ∃ fs', save_document ⟨"uploads", 2, 3⟩ (fun _ => "text/plain") ⟨2024, 1, 2, 3, 4, 5⟩
        ⟨0, 0, 0, 0⟩ ⟨"a.txt", "text/plain", [1, 2, 3, 4]⟩ .resume ⟨[], []⟩ =
        (.error (.generic "Error saving document: File size exceeds maximum limit"), fs') ∧
      lookupFile fs'.files
        (joinPath "uploads" (newFilename .resume ⟨2024, 1, 2, 3, 4, 5⟩ ⟨0, 0, 0, 0⟩ "a.txt")) =
        none :=
  c3_size_limit_rejected ⟨"uploads", 2, 3⟩ (fun _ => "text/plain") ⟨2024, 1, 2, 3, 4, 5⟩
    ⟨0, 0, 0, 0⟩ ⟨"a.txt", "text/plain", [1, 2, 3, 4]⟩ .resume ⟨[], []⟩ (by decide) (by simp)

/-- C4 (amended): `save_document` never propagates the stream stage's
`SizeLimitExceeded` as-is: every error it surfaces is the generic wrapper
`Exception("Error saving document: ...")`, distinguishable only by its
message text, not by its type. -/
theorem c4_errors_wrapped_generic (cfg : Config) (sniff : List Nat → String) (tm : DateTime)
    (u : UuidBytes) (file : UploadFileData) (dtp : DocumentType) (fs : FS)
    (e : PyErr) (fs' : FS)
    (h : save_document cfg sniff tm u file dtp fs = (.error e, fs')) :
    ∃ m, e = PyErr.generic ("Error saving document: " ++ m) :=
  save_document_error_generic cfg sniff tm u file dtp fs e fs' h

theorem c4_witness :
    ∃ m, PyErr.generic "Error saving document: File size exceeds maximum limit" =
      PyErr.generic ("Error saving document: " ++ m) :=
  c4_errors_wrapped_generic ⟨"uploads", 2, 3⟩ (fun _ => "text/plain") ⟨2024, 1, 2, 3, 4, 5⟩
    ⟨0, 0, 0, 0⟩ ⟨"a.txt", "text/plain", [1, 2, 3, 4]⟩ .resume ⟨[], []⟩ _ ⟨[], []⟩ rfl

/-- C4 counterexample: on an oversized upload the stream stage raises the
typed `ValueError("File size exceeds maximum limit")`, but `save_document`
surfaces a generic wrapped error instead of that error, and an
unsupported-type failure is wrapped with the same generic constructor, so
the two are not type-distinguishable. -/
theorem c4_counterexample :
    (save_document ⟨"uploads", 2, 3⟩ (fun _ => "text/plain") ⟨2024, 1, 2, 3, 4, 5⟩
        ⟨0, 0, 0, 0⟩ ⟨"a.txt", "text/plain", [1, 2, 3, 4]⟩ .resume ⟨[], []⟩).1 =
      .error (.generic "Error saving document: File size exceeds maximum limit") ∧
    (stream_file ⟨"uploads", 2, 3⟩
        (joinPath "uploads" (newFilename .resume ⟨2024, 1, 2, 3, 4, 5⟩ ⟨0, 0, 0, 0⟩ "a.txt"))
        [1, 2, 3, 4] ⟨[], []⟩).1 =
      .error (.valueError "File size exceeds maximum limit") ∧
    (save_document ⟨"uploads", 2, 10⟩ (fun _ => "application/zip") ⟨2024, 1, 2, 3, 4, 5⟩
        ⟨0, 0, 0, 0⟩ ⟨"a.txt", "text/plain", [1, 2, 3]⟩ .resume ⟨[], []⟩).1 =
      .error (.generic "Error saving document: Invalid file type") ∧
    decide (PyErr.generic "Error saving document: File size exceeds maximum limit" =
      PyErr.valueError "File size exceeds maximum limit") = false :=
  ⟨rfl, rfl, rfl, rfl⟩

/-- C5: every input stream of length at most `max_file_size_bytes` whose
on-disk byte signature is in the allow-list is saved successfully, and the
returned descriptor's `size_bytes` equals exactly the input length. -/
theorem c5_success_exact_size (cfg : Config) (sniff : List Nat → String) (tm : DateTime)
    (u : UuidBytes) (file : UploadFileData) (dtp : DocumentType) (fs : FS)
    (hlen : file.data.length ≤ cfg.max_file_size)
    (hsniff : allowedTypes.contains (sniff file.data) = true) :
    ∃ info fs', save_document cfg sniff tm u file dtp fs = (.ok info, fs') ∧
      info.size = file.data.length ∧ info.document_type = dtp ∧
      info.filename = newFilename dtp tm u file.filename := by
  obtain ⟨fs', h, _⟩ := save_document_ok_of_valid cfg sniff tm u file dtp fs hlen hsniff
  exact ⟨_, fs', h, rfl, rfl, rfl⟩

theorem c5_witness :
    ∃ info fs', save_document ⟨"uploads", 2, 10⟩ (fun _ => "text/plain") ⟨2024, 1, 2, 3, 4, 5⟩
        ⟨0, 0, 0, 0⟩ ⟨"a.txt", "text/plain", [1, 2, 3]⟩ .resume ⟨[], []⟩ = (.ok info, fs') ∧
      info.size = 3 ∧ info.document_type = .resume ∧
      info.filename = newFilename .resume ⟨2024, 1, 2, 3, 4, 5⟩ ⟨0, 0, 0, 0⟩ "a.txt" :=
  c5_success_exact_size ⟨"uploads", 2, 10⟩ (fun _ => "text/plain") ⟨2024, 1, 2, 3, 4, 5⟩
    ⟨0, 0, 0, 0⟩ ⟨"a.txt", "text/plain", [1, 2, 3]⟩ .resume ⟨[], []⟩ (by decide) (by decide)

/-- C6: every completed upload (length within the ceiling) whose on-disk
byte signature is outside the allow-list is rejected — regardless of the
caller-declared content type and of the original file name/extension,
which are quantified freely — and no file remains at the destination. The
surfaced condition is the invalid-type error wrapped by the save handler. -/
theorem c6_unsupported_type_rejected (cfg : Config) (sniff : List Nat → String) (tm : DateTime)
    (u : UuidBytes) (file : UploadFileData) (dtp : DocumentType) (fs : FS)
    (hlen : file.data.length ≤ cfg.max_file_size)
    (hsniff : allowedTypes.contains (sniff file.data) = false)
    (hdel : joinPath cfg.upload_dir (newFilename dtp tm u file.filename) ∉ fs.undeletable) :
    ∃ fs', save_document cfg sniff tm u file dtp fs =
        (.error (.generic "Error saving document: Invalid file type"), fs') ∧
      lookupFile fs'.files (joinPath cfg.upload_dir (newFilename dtp tm u file.filename)) =
        none :=
  save_document_invalid_type cfg sniff tm u file dtp fs hlen hsniff hdel

theorem c6_witness :
    ∃ fs', save_document ⟨"uploads", 2, 10⟩ (fun _ => "image/jpeg") ⟨2024, 1, 2, 3, 4, 5⟩
        ⟨0, 0, 0, 0⟩ ⟨"fake.pdf", "application/pdf", [255, 216, 255]⟩ .resume ⟨[], []⟩ =
        (.error (.generic "Error saving document: Invalid file type"), fs') ∧
      lookupFile fs'.files
        (joinPath "uploads"
          (newFilename .resume ⟨2024, 1, 2, 3, 4, 5⟩ ⟨0, 0, 0, 0⟩ "fake.pdf")) = none :=
  c6_unsupported_type_rejected ⟨"uploads", 2, 10⟩ (fun _ => "image/jpeg") ⟨2024, 1, 2, 3, 4, 5⟩
    ⟨0, 0, 0, 0⟩ ⟨"fake.pdf", "application/pdf", [255, 216, 255]⟩ .resume ⟨[], []⟩
    (by decide) (by decide) (by simp)

/-- C7 (amended): when deleting the partially written file fails during a
size-limit overrun, the deletion failure replaces the primary error: the
loop's `os.remove` exception propagates instead of the size-limit
`ValueError`, `save_document` wraps and surfaces the deletion error, and
the partially written file remains on disk. -/
theorem c7_delete_failure_masks_size_error (cfg : Config) (sniff : List Nat → String)
    (tm : DateTime) (u : UuidBytes) (file : UploadFileData) (dtp : DocumentType) (fs : FS)
    (hover : file.data.length > cfg.max_file_size)
    (hdel : joinPath cfg.upload_dir (newFilename dtp tm u file.filename) ∈ fs.undeletable) :
    ∃ fs' w', save_document cfg sniff tm u file dtp fs =
        (.error (.generic "Error saving document: Permission denied"), fs') ∧
      lookupFile fs'.files (joinPath cfg.upload_dir (newFilename dtp tm u file.filename)) =
        some w' :=
  save_document_overflow_fault cfg sniff tm u file dtp fs hover hdel

theorem c7_witness :
    ∃ fs' w', save_document ⟨"uploads", 2, 3⟩ (fun _ => "text/plain") ⟨2024, 1, 2, 3, 4, 5⟩
        ⟨0, 0, 0, 0⟩ ⟨"a.txt", "text/plain", [1, 2, 3, 4]⟩ .resume
        ⟨[], ["uploads/resume_20240102_030405_00000000.txt"]⟩ =
        (.error (.generic "Error saving document: Permission denied"), fs') ∧
      lookupFile fs'.files
        (joinPath "uploads" (newFilename .resume ⟨2024, 1, 2, 3, 4, 5⟩ ⟨0, 0, 0, 0⟩ "a.txt")) =
        some w' :=
  c7_delete_failure_masks_size_error ⟨"uploads", 2, 3⟩ (fun _ => "text/plain")
    ⟨2024, 1, 2, 3, 4, 5⟩ ⟨0, 0, 0, 0⟩ ⟨"a.txt", "text/plain", [1, 2, 3, 4]⟩ .resume
    ⟨[], ["uploads/resume_20240102_030405_00000000.txt"]⟩ (by decide)
    (List.mem_cons_self _ _)

/-- C7 counterexample: with an oversized stream and a destination whose
deletion fails, `save_document` surfaces the wrapped deletion error, not
the size-limit condition the claim requires, and the partial file (the
first chunk) is left behind. -/
theorem c7_counterexample :
    (save_document ⟨"uploads", 2, 3⟩ (fun _ => "text/plain") ⟨2024, 1, 2, 3, 4, 5⟩
        ⟨0, 0, 0, 0⟩ ⟨"a.txt", "text/plain", [1, 2, 3, 4]⟩ .resume
        ⟨[], ["uploads/resume_20240102_030405_00000000.txt"]⟩).1 =
      .error (.generic "Error saving document: Permission denied") ∧
    decide (PyErr.generic "Error saving document: Permission denied" =
      PyErr.generic "Error saving document: File size exceeds maximum limit") = false ∧
    lookupFile (save_document ⟨"uploads", 2, 3⟩ (fun _ => "text/plain") ⟨2024, 1, 2, 3, 4, 5⟩
        ⟨0, 0, 0, 0⟩ ⟨"a.txt", "text/plain", [1, 2, 3, 4]⟩ .resume
        ⟨[], ["uploads/resume_20240102_030405_00000000.txt"]⟩).2.files
      "uploads/resume_20240102_030405_00000000.txt" = some [1, 2] :=
  ⟨rfl, rfl, rfl⟩

/-- C8: for every caller-supplied original file name and every category,
the stored name generated by `save_document` contains no path separator,
contains at most one dot (so no `..` segment), and begins with the letter
of its category prefix (so the single path segment is never a relative
`.`/`..` segment), keeping the created file inside the store root. -/
theorem c8_stored_name_safe (dtp : DocumentType) (tm : DateTime) (u : UuidBytes)
    (orig : String) :
    (newFilename dtp tm u orig).data.count '/' = 0 ∧
    (newFilename dtp tm u orig).data.count '.' ≤ 1 ∧
    ((newFilename dtp tm u orig).data.head? = some 'r' ∨
      (newFilename dtp tm u orig).data.head? = some 'c') := by
  have hd : (newFilename dtp tm u orig).data =
      (dtp.value).data ++ '_' :: ((strftimeTimestamp tm).data ++ '_' ::
        ((uuidHex8 u).data ++ (splitextExt orig).data)) := by
    simp [newFilename, String.data_append]
  have hts : ∀ c : Char, c ∈ (strftimeTimestamp tm).data → c ∈ hexCharList ∨ c = '_' :=
    strftimeTimestamp_mem tm
  refine ⟨?_, ?_, ?_⟩
  · have h1 : (dtp.value).data.count '/' = 0 := by cases dtp <;> decide
    have h2 : (strftimeTimestamp tm).data.count '/' = 0 := by
      rw [List.count_eq_zero]
      intro hmem
      rcases hts '/' hmem with hm | he
      · exact absurd hm (by decide)
      · exact absurd he (by decide)
    have h3 : (uuidHex8 u).data.count '/' = 0 := by
      rw [List.count_eq_zero]
      intro hmem
      exact absurd (uuidHex8_mem u '/' hmem) (by decide)
    have h4 : (splitextExt orig).data.count '/' = 0 :=
      List.count_eq_zero.mpr (splitextExt_no_slash orig)
    rw [hd]
    simp [List.count_append, List.count_cons, h1, h2, h3, h4]
  · have h1 : (dtp.value).data.count '.' = 0 := by cases dtp <;> decide
    have h2 : (strftimeTimestamp tm).data.count '.' = 0 := by
      rw [List.count_eq_zero]
      intro hmem
      rcases hts '.' hmem with hm | he
      · exact absurd hm (by decide)
      · exact absurd he (by decide)
    have h3 : (uuidHex8 u).data.count '.' = 0 := by
      rw [List.count_eq_zero]
      intro hmem
      exact absurd (uuidHex8_mem u '.' hmem) (by decide)
    rw [hd]
    simp [List.count_append, List.count_cons, h1, h2, h3]
    exact splitextExt_count_dot orig
  · have hne : (dtp.value).data ≠ [] := by cases dtp <;> decide
    rw [hd, List.head?_append_of_ne_nil _ hne]
    cases dtp
    · exact Or.inl (by decide)
    · exact Or.inr (by decide)

/-- C9: `delete_document` is idempotent under a fault-free storage layer:
on an existing stored name it returns `true` and a second call returns
`false`; on a missing name it returns `false` without raising. -/
theorem c9_delete_idempotent (cfg : Config) (fname : String) (fs : FS)
    (hdel : joinPath cfg.upload_dir fname ∉ fs.undeletable) :
    (∀ w, lookupFile fs.files (joinPath cfg.upload_dir fname) = some w →
       ∃ fs', delete_document cfg fname fs = (.ok true, fs') ∧
         delete_document cfg fname fs' = (.ok false, fs')) ∧
    (lookupFile fs.files (joinPath cfg.upload_dir fname) = none →
       delete_document cfg fname fs = (.ok false, fs)) := by
  constructor
  · intro w hw
    obtain ⟨fs', hrem, hlook', hund'⟩ := remove_ok fs (joinPath cfg.upload_dir fname) hdel
      (by simp [FS.pathExists, hw])
    refine ⟨fs', ?_, ?_⟩
    · rw [delete_document_eq, if_pos (by simp [FS.pathExists, hw]), hrem]
    · rw [delete_document_eq, if_neg (by simp [FS.pathExists, hlook'])]
  · intro hnone
    rw [delete_document_eq, if_neg (by simp [FS.pathExists, hnone])]

theorem c9_witness :
    (∃ fs', delete_document ⟨"uploads", 2, 10⟩ "resume_a.txt"
        ⟨[("uploads/resume_a.txt", [1])], []⟩ = (.ok true, fs') ∧
       delete_document ⟨"uploads", 2, 10⟩ "resume_a.txt" fs' = (.ok false, fs')) ∧
    delete_document ⟨"uploads", 2, 10⟩ "missing.txt"
        ⟨[("uploads/resume_a.txt", [1])], []⟩ =
      (.ok false, ⟨[("uploads/resume_a.txt", [1])], []⟩) :=
  ⟨(c9_delete_idempotent ⟨"uploads", 2, 10⟩ "resume_a.txt"
      ⟨[("uploads/resume_a.txt", [1])], []⟩ (by simp)).1 [1] rfl,
   (c9_delete_idempotent ⟨"uploads", 2, 10⟩ "missing.txt"
      ⟨[("uploads/resume_a.txt", [1])], []⟩ (by simp)).2 rfl⟩

/-- C10: `get_document` and `delete_document` join the caller-supplied
filename onto the upload directory with no sanitisation: for the filename
`"../secret.txt"` (which contains a separator and a `..` segment) the
joined path normalises to a location outside the store root, and both
retrieval and deletion act on the file stored at that outside path. -/
theorem c10_unsanitized_lookup_paths :
    "../secret.txt".data.count '/' = 1 ∧
    splitSlashAux [] "../secret.txt".data = ["..", "secret.txt"] ∧
    joinPath "uploads" "../secret.txt" = "uploads/../secret.txt" ∧
    normalizeSegs "uploads/../secret.txt" = ["secret.txt"] ∧
    segsIsPrefixOf (normalizeSegs "uploads") (normalizeSegs "uploads/../secret.txt") = false ∧
    get_document ⟨"uploads", 1048576, 10485760⟩ "../secret.txt"
        ⟨[("uploads/../secret.txt", [1, 2, 3])], []⟩ =
      some ⟨"../secret.txt", "../secret.txt", "uploads/../secret.txt", .resume, 3,
            "application/octet-stream", some 0⟩ ∧
    delete_document ⟨"uploads", 1048576, 10485760⟩ "../secret.txt"
        ⟨[("uploads/../secret.txt", [1, 2, 3])], []⟩ = (.ok true, ⟨[], []⟩) :=
  ⟨rfl, rfl, rfl, rfl, rfl, rfl, rfl⟩

/-- C2 (amended): `list_documents` returns exactly the descriptors of
directory entries whose name prefix before the first underscore parses as
a known category matching the filter; entries with an unknown prefix are
skipped silently. Since stored cover-letter names start with
`"cover_letter_"`, their derived prefix is `"cover"`, which is unknown, so
no listed descriptor ever carries such a name — cover-letter documents
are never listed. -/
theorem c2_list_exactly_known_prefixes (cfg : Config) (filt : Option DocumentType) (fs : FS) :
    (∀ info ∈ (list_documents cfg filt fs).documents,
        DocumentType.ofString? (splitHead info.filename) = some info.document_type ∧
        ∀ t, filt = some t → info.document_type = t) ∧
    (∀ p c, (p, c) ∈ fs.files → ∀ nm, entryNameOf cfg.upload_dir p = some nm →
        ∀ t, DocumentType.ofString? (splitHead nm) = some t →
        (filt = none ∨ filt = some t) →
        (⟨nm, nm, p, t, c.length, "application/octet-stream", some 0⟩ : DocumentInfo) ∈
          (list_documents cfg filt fs).documents) ∧
    (∀ info ∈ (list_documents cfg filt fs).documents, ∀ r : String,
        info.filename ≠ "cover_letter_" ++ r) := by
  have hdocs : (list_documents cfg filt fs).documents =
      fs.files.filterMap (listEntry cfg.upload_dir filt) := rfl
  have hsound : ∀ info ∈ (list_documents cfg filt fs).documents,
      DocumentType.ofString? (splitHead info.filename) = some info.document_type ∧
      ∀ t, filt = some t → info.document_type = t := by
    intro info hmem
    rw [hdocs, List.mem_filterMap] at hmem
    obtain ⟨pc, _, hf⟩ := hmem
    obtain ⟨nm, _, hof, hname, _, hfilt⟩ := listEntry_some_inv _ _ _ _ hf
    exact ⟨by rw [hname]; exact hof, hfilt⟩
  refine ⟨hsound, ?_, ?_⟩
  · intro p c hmem nm hen t hof hfil
    rw [hdocs, List.mem_filterMap]
    exact ⟨(p, c), hmem, listEntry_some_of _ _ _ _ _ hen hof hfil⟩
  · intro info hmem r hr
    obtain ⟨hof, _⟩ := hsound info hmem
    rw [hr, splitHead_cover_letter_prefixed] at hof
    have hnone : DocumentType.ofString? "cover" = none := rfl
    rw [hnone] at hof
    exact Option.noConfusion hof

theorem c2_witness :
    (⟨"resume_a.txt", "resume_a.txt", "uploads/resume_a.txt", DocumentType.resume, 3,
      "application/octet-stream", some 0⟩ : DocumentInfo) ∈
      (list_documents ⟨"uploads", 2, 10⟩ (some DocumentType.resume)
        ⟨[("uploads/resume_a.txt", [1, 2, 3]), ("uploads/cover_letter_b.txt", [4, 5])],
         []⟩).documents :=
  (c2_list_exactly_known_prefixes ⟨"uploads", 2, 10⟩ (some DocumentType.resume)
      ⟨[("uploads/resume_a.txt", [1, 2, 3]), ("uploads/cover_letter_b.txt", [4, 5])], []⟩).2.1
    "uploads/resume_a.txt" [1, 2, 3] (List.mem_cons_self _ _) "resume_a.txt" rfl
    DocumentType.resume rfl (Or.inr rfl)

/-- C2 counterexample: a cover-letter document stored by `save_document`
is omitted by `list_documents` even when filtering for `cover_letter` (and
even unfiltered), because its derived prefix `"cover"` is not a known
category — contradicting the claim that listing returns all stored
documents of the filtered category including cover letters. -/
theorem c2_counterexample :
    (save_document ⟨"uploads", 2, 10⟩ (fun _ => "application/pdf") ⟨2024, 1, 1, 0, 0, 0⟩
        ⟨171, 18, 205, 52⟩ ⟨"a.pdf", "application/pdf", [37, 80, 68, 70]⟩
        .cover_letter ⟨[], []⟩).1 =
      .ok ⟨"cover_letter_20240101_000000_ab12cd34.pdf", "a.pdf",
           "uploads/cover_letter_20240101_000000_ab12cd34.pdf", .cover_letter, 4,
           "application/pdf", none⟩ ∧
    (list_documents ⟨"uploads", 2, 10⟩ (some .cover_letter)
        (save_document ⟨"uploads", 2, 10⟩ (fun _ => "application/pdf") ⟨2024, 1, 1, 0, 0, 0⟩
          ⟨171, 18, 205, 52⟩ ⟨"a.pdf", "application/pdf", [37, 80, 68, 70]⟩
          .cover_letter ⟨[], []⟩).2).documents = [] ∧
    (list_documents ⟨"uploads", 2, 10⟩ none
        (save_document ⟨"uploads", 2, 10⟩ (fun _ => "application/pdf") ⟨2024, 1, 1, 0, 0, 0⟩
          ⟨171, 18, 205, 52⟩ ⟨"a.pdf", "application/pdf", [37, 80, 68, 70]⟩
          .cover_letter ⟨[], []⟩).2).documents = [] :=
  ⟨rfl, rfl, rfl⟩
